import Mathlib

/-!
Verification of the gui_builder field/form binding layer.

Shallow embedding of the relevant parts of `gui_builder` (a declarative
GUI-construction layer): the value model for Python callback results, the
event-propagation decision of `callback_wrapper`, field/widget render error
paths, widget destruction, the metaclass field-collection algorithm, form
iteration and value aggregation.  Each definition is translated from the
corresponding Python source in the repository; theorems check the spec's
claims against these definitions.
-/

set_option autoImplicit false

namespace GuiBuilder

/-- A small model of Python runtime values, covering the shapes that the
embedded code inspects: `None`, booleans, integers, strings and opaque
object references. -/
inductive PyVal where
  | none : PyVal
  | bool (b : Bool) : PyVal
  | int (n : Int) : PyVal
  | str (s : String) : PyVal
  | obj (id : Nat) : PyVal
deriving DecidableEq, Repr

/-- Python truthiness for the modelled values: `None` and `False` are falsy,
`0` is falsy, the empty string is falsy, objects are truthy. -/
def pyTruthy : PyVal → Bool
  | PyVal.none => false
  | PyVal.bool b => b
  | PyVal.int n => n != 0
  | PyVal.str s => s != ""
  | PyVal.obj _ => true

/-- Module `gui_builder.__init__` defines `VETO = DialogResult.VETO`, a `StrEnum`
member with value `"veto"`.  Python `==` between a value and `VETO` holds
exactly for `VETO` itself and for the equal string `"veto"` (StrEnum members
compare equal to their string value); values of other types are never equal
to it. -/
def eqVeto : PyVal → Bool
  | PyVal.str s => s == "veto"
  | _ => false

/-- Actions a wrapped callback may invoke on the native event object. -/
inductive EventAction where
  | stopPropagation : EventAction
  | skip : EventAction
deriving DecidableEq, Repr

/-- The tail of `callback_wrapper` in `widgets/wx_widgets.py` (lines 202-205):
after the user callback returns `result`, the wrapper runs

  `if result == VETO: evt.StopPropagation()`
  `elif not result: evt.Skip()`

and otherwise touches the event no further.  We record the calls made on the
event as a list of actions. -/
def callbackResultActions (result : PyVal) : List EventAction :=
  if eqVeto result then [EventAction.stopPropagation]
  else if !pyTruthy result then [EventAction.skip]
  else []

/-- A model of the Python exceptions raised by the embedded code paths.
`runtimeError msg cause` is `RuntimeError(msg)`, with `cause` recording the
`raise ... from e` cause when present; `runtimeErrorArgs msg arg` is
`RuntimeError(msg, e)` — the two-argument form used in
`Widget.create_control`, which attaches no cause. -/
inductive PyError where
  | runtimeError (msg : String) (cause : Option String) : PyError
  | runtimeErrorArgs (msg : String) (arg : String) : PyError
deriving DecidableEq, Repr

/-- Model of `GUIField.render` (`fields.py` lines 245-284), reduced to the widget-type
check and the widget construction.  `widgetTypeName` is `self.widget_type`
(`Option.none` models Python `None`); `ctor` models calling
`self.widget_type(...)`, which either produces a widget (identified by a
`Nat`) or raises an exception whose text is a `String`.

Source:
  `if self.widget_type is None: raise RuntimeError("Must set a widget_type for %r" % self)`
  ...
  `try: self.widget = self.widget_type(field=self, ...)`
  `except Exception as e: raise RuntimeError("Unable to create widget with type %r: %s" % (self.widget_type, str(e))) from e` -/
def fieldRender (widgetTypeName : Option String) (ctor : String → Except String Nat) :
    Except PyError Nat :=
  match widgetTypeName with
  | Option.none =>
      Except.error (PyError.runtimeError "Must set a widget_type" Option.none)
  | Option.some t =>
      match ctor t with
      | Except.error e =>
          Except.error (PyError.runtimeError
            ("Unable to create widget with type " ++ t ++ ": " ++ e) (Option.some e))
      | Except.ok w => Except.ok w

/-- Model of `Widget.create_control` (`widgets/widget.py` lines 35-49): if
`self.control_type is None` a `RuntimeError("No control type provided")` is
raised; a failing native constructor is re-raised as the two-argument
`RuntimeError("Unable to render control type %r with field %r" % (...), e)`. -/
def createControl (controlTypeName : Option String) (ctor : String → Except String Nat) :
    Except PyError Nat :=
  match controlTypeName with
  | Option.none =>
      Except.error (PyError.runtimeError "No control type provided" Option.none)
  | Option.some t =>
      match ctor t with
      | Except.error e =>
          Except.error (PyError.runtimeErrorArgs
            ("Unable to render control type " ++ t) e)
      | Except.ok c => Except.ok c

/-- State of a `WXWidget` at destruction time: whether the native control is
still alive, and the associated label control (`Option.none` when the widget
has no label control; `some b` when a label control exists with liveness
`b`). -/
structure WXWidgetState where
  labelControl : Option Bool
  controlAlive : Bool
deriving DecidableEq, Repr

/-- Model of `wx.Window.Destroy`: succeeds on a live object (leaving it dead), raises
the dead-object error — `PyDeadObjectError`, which `wx_widgets.py` line 55
aliases to `RuntimeError` — on an already-destroyed one. -/
def wxControlDestroy (alive : Bool) : Except PyError Bool :=
  if alive then Except.ok false
  else Except.error
    (PyError.runtimeError "wrapped C/C++ object has been deleted" Option.none)

/-- Model of `try: x.Destroy() except PyDeadObjectError: pass` — the dead-object
`RuntimeError` is swallowed, any other exception would propagate. -/
def tryDestroy (alive : Bool) : Except PyError Bool :=
  match wxControlDestroy alive with
  | Except.ok a => Except.ok a
  | Except.error (PyError.runtimeError _ _) => Except.ok alive
  | Except.error e => Except.error e

/-- Model of `WXWidget.destroy` (`widgets/wx_widgets.py` lines 470-480):

  `label = getattr(self, "label_control", None)`
  `if label is not None:`
  `    try: label.Destroy()`
  `    except PyDeadObjectError: pass`
  `try: self.control.Destroy()`
  `except PyDeadObjectError: pass` -/
def widgetDestroy (s : WXWidgetState) : Except PyError WXWidgetState :=
  match s.labelControl with
  | Option.none =>
      match tryDestroy s.controlAlive with
      | Except.ok c => Except.ok { labelControl := Option.none, controlAlive := c }
      | Except.error e => Except.error e
  | Option.some la =>
      match tryDestroy la with
      | Except.ok la2 =>
          match tryDestroy s.controlAlive with
          | Except.ok c => Except.ok { labelControl := Option.some la2, controlAlive := c }
          | Except.error e => Except.error e
      | Except.error e => Except.error e

/-- A field tree: each node carries its `default_focus` flag, the result of
`can_be_focused()`, and its children in the form's iteration order (source
declaration order).  Plain fields are nodes with no children (they have no
`get_all_children`, which `get_all_children` skips). -/
inductive FTree where
  | mk (defaultFocus : Bool) (canFocus : Bool) (children : List FTree) : FTree

/-- The `default_focus` flag of a field. -/
def FTree.defaultFocus : FTree → Bool
  | FTree.mk d _ _ => d

/-- The `can_be_focused()` result of a field. -/
def FTree.canFocus : FTree → Bool
  | FTree.mk _ c _ => c

/-- The children of a field, in iteration order. -/
def FTree.children : FTree → List FTree
  | FTree.mk _ _ cs => cs

mutual

/-- Model of `BaseForm.get_all_children` (`forms.py` lines 80-90): yields each child,
then recursively all of the child's descendants, in iteration order — a
depth-first pre-order traversal of the descendants. -/
def getAllChildren : FTree → List FTree
  | FTree.mk _ _ cs => getAllChildrenList cs

/-- The traversal of `get_all_children` over a list of children. -/
def getAllChildrenList : List FTree → List FTree
  | [] => []
  | c :: rest => c :: (getAllChildren c ++ getAllChildrenList rest)

end

/-- The first loop of `BaseForm.set_default_focus` (`forms.py` lines
206-210): scan the descendants for a field with `default_focus` set that can
be focused; focus it and return as soon as one is found. -/
def focusScanDefault : List FTree → Option FTree
  | [] => Option.none
  | c :: rest =>
      if c.defaultFocus && c.canFocus then Option.some c else focusScanDefault rest

/-- The loop of `BaseForm.get_first_focusable_child` (`forms.py` lines
218-222). -/
def focusScanFocusable : List FTree → Option FTree
  | [] => Option.none
  | c :: rest => if c.canFocus then Option.some c else focusScanFocusable rest

/-- Model of `BaseForm.get_first_focusable_child`. -/
def getFirstFocusableChild (f : FTree) : Option FTree :=
  focusScanFocusable (getAllChildren f)

/-- A `set_focus` call made during `set_default_focus`: either on a
descendant field or on the form itself. -/
inductive FocusCall where
  | onDescendant (t : FTree) : FocusCall
  | onSelf : FocusCall

/-- Model of `BaseForm.set_default_focus` (`forms.py` lines 204-216), recording the
`set_focus` calls it makes.  Each branch of the source returns immediately
after its single `set_focus()` call. -/
def setDefaultFocusCalls (f : FTree) : List FocusCall :=
  match focusScanDefault (getAllChildren f) with
  | Option.some c => [FocusCall.onDescendant c]
  | Option.none =>
      match getFirstFocusableChild f with
      | Option.some c => [FocusCall.onDescendant c]
      | Option.none => [FocusCall.onSelf]

/-- Modelled from the spec's words, for comparison with the code: "forms
determine default keyboard focus by walking descendants depth-first for an
explicitly flagged field, falling back to first focusable descendant,
falling back to the form itself" — the first descendant (in depth-first
order) with the flag set and focusable, else the first focusable descendant,
else the form. -/
def specDefaultFocusTarget (f : FTree) : FocusCall :=
  match (getAllChildren f).find? (fun c => c.defaultFocus && c.canFocus) with
  | Option.some c => FocusCall.onDescendant c
  | Option.none =>
      match (getAllChildren f).find? (fun c => c.canFocus) with
      | Option.some c => FocusCall.onDescendant c
      | Option.none => FocusCall.onSelf

/-- Keyword arguments: an association list from names to values, standing
for a Python `dict` (unique keys, insertion-ordered). -/
abbrev Kwargs := List (String × PyVal)

/-- Python `key in kwargs`. -/
def hasKey (kw : Kwargs) (k : String) : Bool :=
  (kw.lookup k).isSome

/-- Python `kwargs.get(key)`, defaulting to `None`. -/
def kwGet (kw : Kwargs) (k : String) : PyVal :=
  (kw.lookup k).getD PyVal.none

/-- Extract a Python string-or-`None` into an `Option String`. -/
def pyStrOpt : PyVal → Option String
  | PyVal.str s => Option.some s
  | _ => Option.none

/-- Wrap an `Option String` back into a Python value (`None` for `none`). -/
def optToPy : Option String → PyVal
  | Option.none => PyVal.none
  | Option.some s => PyVal.str s

/-- The model of the unbound descriptor that `GUIField.__new__` returns: it
stores the constructor keyword arguments for a later `bind`. -/
structure UnboundFieldModel where
  kwargs : Kwargs
deriving DecidableEq, Repr

/-- A live (constructed) field, as far as binding is concerned.  `parent` is
the field's `parent` attribute; `bound_name` is `Option.none` when the
`bound_name` attribute was never set (it is only assigned inside `bind`),
and `some n` when `bind` set it to `n`. -/
structure LiveField where
  parent : PyVal
  bound_name : Option (Option String)
deriving DecidableEq, Repr

/-- Model of `GUIField.bind` (`fields.py` lines 219-234): `self.parent = parent;`
`self.bound_name = name; return self`. -/
def guiFieldBind (f : LiveField) (parent : PyVal) (name : Option String) : LiveField :=
  { f with parent := parent, bound_name := Option.some name }

/-- The binding part of `GUIField.__init__` (`fields.py` lines 205-207):
`self.parent = None; if parent is not None: self.bind(parent, bound_name)`. -/
def guiFieldInit (parent : PyVal) (bound_name : Option String) : LiveField :=
  let f : LiveField := { parent := PyVal.none, bound_name := Option.none }
  if parent = PyVal.none then f else guiFieldBind f parent bound_name

/-- The result of calling a field class: `GUIField.__new__` either returns
an `UnboundField` descriptor or a live instance (which `__init__` then
initialises). -/
inductive NewResult where
  | unbound (u : UnboundFieldModel) : NewResult
  | live (f : LiveField) : NewResult
deriving DecidableEq, Repr

/-- Calling a field class with keyword arguments `kwargs`:
`GUIField.__new__` (`fields.py` lines 166-170) returns a live instance when
`"parent" in kwargs or kwargs.get("top_level_window")` is truthy, and an
`UnboundField(cls, *args, **kwargs)` descriptor otherwise; on the live path
`__init__` runs with the `parent` and `bound_name` keywords. -/
def guiFieldConstruct (kwargs : Kwargs) : NewResult :=
  if hasKey kwargs "parent" || pyTruthy (kwGet kwargs "top_level_window") then
    NewResult.live (guiFieldInit (kwGet kwargs "parent") (pyStrOpt (kwGet kwargs "bound_name")))
  else
    NewResult.unbound { kwargs := kwargs }

/-- Model of `UnboundField.bind` (`fields.py` lines 79-89):
`kwargs.update(self.kwargs)` then
`self.field(bound_name=name, parent=parent, extra_callbacks=..., **kwargs)` —
the stored constructor kwargs are merged behind the explicit `bound_name`
and `parent` keywords, and the field class is called again. -/
def unboundFieldBind (u : UnboundFieldModel) (parent : PyVal) (name : Option String) :
    NewResult :=
  guiFieldConstruct (("bound_name", optToPy name) :: ("parent", parent) :: u.kwargs)

/-- Reference kinds: a plain Python attribute assignment keeps the referent
alive (`strong`); `weakref.proxy`/`weakref.ref` does not (`weak`). -/
inductive RefKind where
  | strong : RefKind
  | weak : RefKind
deriving DecidableEq, Repr

/-- The kinds of the back/forward references between a field, its widget and
its parent, each read off the corresponding assignment in the source:

* `fieldToWidget`: `fields.py` line 275, `self.widget = self.widget_type(...)`
  — a plain assignment;
* `widgetToField`: `widgets/widget.py` line 18,
  `self.field = weakref.proxy(field)` — a weak reference;
* `fieldToParent`: `fields.py` line 232 (in `GUIField.bind`),
  `self.parent = parent` — a plain assignment. -/
structure RefModel where
  fieldToWidget : RefKind
  widgetToField : RefKind
  fieldToParent : RefKind
deriving DecidableEq, Repr

/-- The reference kinds as implemented in the source. -/
def guiRefModel : RefModel :=
  { fieldToWidget := RefKind.strong
    widgetToField := RefKind.weak
    fieldToParent := RefKind.strong }

/-- A rendered field as seen by `get_value`: either a plain field with a
`bound_name` and a value, or a child form with a `bound_name` and its own
children.  The name stored here is the field's `bound_name`, which
`add_child` sets to the child's key in the parent's `_fields` mapping. -/
inductive VField where
  | leaf (name : String) (value : PyVal) : VField
  | form (name : String) (children : List VField) : VField

/-- The `bound_name` of a field. -/
def VField.name : VField → String
  | VField.leaf n _ => n
  | VField.form n _ => n

/-- A `get_value` result: a primitive value for plain fields, or a mapping
(dict, insertion-ordered) for forms. -/
inductive PyValue where
  | prim (v : PyVal) : PyValue
  | dict (entries : List (String × PyValue)) : PyValue

/-- Python `d[k] = v` on an insertion-ordered dict: an existing key keeps its
position and gets the new value; a new key is appended. -/
def dictSet (d : List (String × PyValue)) (k : String) (v : PyValue) :
    List (String × PyValue) :=
  if (d.map Prod.fst).contains k then
    d.map (fun p => if p.1 = k then (k, v) else p)
  else d ++ [(k, v)]

mutual

/-- A field's `get_value`: plain widgets return their value;
`BaseForm.get_value` (`forms.py` lines 174-179) builds
`res = {}; for field in self: res[field.bound_name] = field.get_value()`. -/
def fieldGetValue : VField → PyValue
  | VField.leaf _ v => PyValue.prim v
  | VField.form _ cs => PyValue.dict (formGetValueLoop [] cs)

/-- The accumulation loop of `BaseForm.get_value`, iterating the children in
form iteration order. -/
def formGetValueLoop : List (String × PyValue) → List VField → List (String × PyValue)
  | res, [] => res
  | res, c :: rest => formGetValueLoop (dictSet res (VField.name c) (fieldGetValue c)) rest

end

/-- Python `kwargs.pop(key)` on a dict, as list filtering (for unique-keyed
dicts this removes exactly the one entry). -/
def dictPop (d : Kwargs) (k : String) : Kwargs :=
  d.filter (fun p => !(p.1 == k))

/-- One iteration of the loop in `BaseForm.__init__` (`forms.py` lines
52-58): for a keyword `(key, value)`, `self[key]` succeeds exactly when
`key` names a child field (otherwise `KeyError` is caught and nothing
happens); on success the child's `default_value` is set (recorded in the
first component, in order) and `kwargs.pop(key)` removes the keyword. -/
def baseFormConsumeStep (childNames : List String) :
    List (String × PyVal) × Kwargs → String × PyVal → List (String × PyVal) × Kwargs :=
  fun acc kv =>
    if childNames.contains kv.1 then (acc.1 ++ [kv], dictPop acc.2 kv.1) else acc

/-- The keyword-consumption loop of `BaseForm.__init__`: iterate over a copy
of the original kwargs (`working_kwargs`), mutating the real `kwargs` dict;
returns the `default_value` assignments made and the kwargs left to forward
to `super().__init__`. -/
def baseFormConsume (childNames : List String) (kwargs : Kwargs) :
    List (String × PyVal) × Kwargs :=
  kwargs.foldl (baseFormConsumeStep childNames) ([], kwargs)

/-- The class attributes of a `Form` subclass, in source declaration order:
each attribute name maps to `some c` when the attribute is an unbound field
(an object with `_GUI_FIELD`, carrying creation counter `c`) and to
`Option.none` when it is any other attribute (a method, a plain value, ...). -/
abbrev PyAttrs := List (String × Option Nat)

/-- Python `name.startswith("_")`: the name's first character is an
underscore, written on the character list so that it evaluates inside the
kernel. -/
def startsUnderscore (name : String) : Bool :=
  match name.data with
  | [] => false
  | c :: _ => c == '_'

/-- The declared fields of the class: its non-underscore unbound-field
attributes, in declaration order, with their creation counters.  This is the
order the claim calls "source declaration order". -/
def declFields : PyAttrs → List (String × Nat)
  | [] => []
  | (n, a) :: rest =>
      if startsUnderscore n then declFields rest
      else
        match a with
        | Option.some c => (n, c) :: declFields rest
        | Option.none => declFields rest

/-- The body of the collection loop of `FormMeta.__call__` (`forms.py` lines
247-252) for one name produced by `dir(cls)`:

  `if name.startswith("_"): continue`
  `unbound_field = getattr(cls, name)`
  `if hasattr(unbound_field, "_GUI_FIELD"): fields.append((name, unbound_field))` -/
def collectStep (attrs : PyAttrs) (name : String) : Option (String × Nat) :=
  if startsUnderscore name then Option.none
  else
    match attrs.lookup name with
    | Option.some (Option.some c) => Option.some (name, c)
    | _ => Option.none

/-- The Python sort key of `FormMeta.__call__`
(`fields.sort(key=lambda x: (x[1].creation_counter, x[0]))`): pairs compared
lexicographically by creation counter, then by name. -/
def fkeyLe (a b : String × Nat) : Prop :=
  a.2 < b.2 ∨ (a.2 = b.2 ∧ a.1 ≤ b.1)

instance fkeyLeDecidable : DecidableRel fkeyLe := fun a b =>
  if h1 : a.2 < b.2 then Decidable.isTrue (Or.inl h1)
  else
    if h2 : a.2 = b.2 then
      if h3 : a.1 ≤ b.1 then Decidable.isTrue (Or.inr ⟨h2, h3⟩)
      else
        Decidable.isFalse (by
          intro h
          rcases h with h | ⟨_, h⟩
          · exact h1 h
          · exact h3 h)
    else
      Decidable.isFalse (by
        intro h
        rcases h with h | ⟨h, _⟩
        · exact h1 h
        · exact h2 h)

instance fkeyLeTotal : IsTotal (String × Nat) fkeyLe where
  total := by
    intro a b
    rcases Nat.lt_trichotomy a.2 b.2 with h | h | h
    · exact Or.inl (Or.inl h)
    · rcases le_total a.1 b.1 with hs | hs
      · exact Or.inl (Or.inr ⟨h, hs⟩)
      · exact Or.inr (Or.inr ⟨h.symm, hs⟩)
    · exact Or.inr (Or.inl h)

instance fkeyLeTrans : IsTrans (String × Nat) fkeyLe where
  trans := by
    intro a b c hab hbc
    rcases hab with h1 | ⟨h1, h1'⟩
    · rcases hbc with h2 | ⟨h2, _⟩
      · exact Or.inl (h1.trans h2)
      · exact Or.inl (by omega)
    · rcases hbc with h2 | ⟨h2, h2'⟩
      · exact Or.inl (by omega)
      · exact Or.inr ⟨by omega, le_trans h1' h2'⟩

instance fkeyLeAntisymm : IsAntisymm (String × Nat) fkeyLe where
  antisymm := by
    intro a b hab hba
    rcases hab with h1 | ⟨h1, h1'⟩
    · rcases hba with h2 | ⟨h2, _⟩
      · omega
      · omega
    · rcases hba with h2 | ⟨h2, h2'⟩
      · omega
      · have hfst : a.1 = b.1 := le_antisymm h1' h2'
        obtain ⟨a1, a2⟩ := a
        obtain ⟨b1, b2⟩ := b
        simp only at hfst h1
        rw [hfst, h1]

/-- The field-collection part of `FormMeta.__call__` (`forms.py` lines
245-254): iterate the names produced by `dir(cls)`, keep the non-underscore
attributes carrying `_GUI_FIELD`, and sort the resulting `(name, field)`
list by `(creation_counter, name)`.  `dir(cls)` returns the class's
attribute names (own and inherited) sorted alphabetically; nothing below
depends on that order, so it is passed in as `dirNames`, constrained in the
theorems to be a permutation of the attribute names. -/
def fmCollect (dirNames : List String) (attrs : PyAttrs) : List (String × Nat) :=
  List.insertionSort fkeyLe (dirNames.filterMap (collectStep attrs))

/-- The global `UnboundField.creation_counter` allocation
(`fields.py` lines 54-55): each construction increments the class-level
counter and stamps the instance with the new value. -/
def allocCounters : Nat → List String → List (String × Nat)
  | _, [] => []
  | counter, n :: rest => (n, counter + 1) :: allocCounters (counter + 1) rest

/-- Model of `Form.__iter__` (`forms.py` lines 310-314):

  `for name, _ in (self._unbound_fields or []) + self._extra_fields:`
  `    if name in self._fields: yield self._fields[name]`

modelled on names: the `_fields` mapping (`fieldKeys`) is consulted only for
membership, never for order. -/
def formIterNames (unbound extra : List (String × Nat)) (fieldKeys : List String) :
    List String :=
  ((unbound ++ extra).map Prod.fst).filter (fun n => fieldKeys.contains n)

end GuiBuilder

namespace GuiBuilder

/-- The early-return scan of `set_default_focus` is `List.find?` with the
`default_focus`-and-focusable predicate. -/
theorem focusScanDefault_eq_find (l : List FTree) :
    focusScanDefault l = l.find? (fun c => c.defaultFocus && c.canFocus) := by
  induction l with
  | nil => rfl
  | cons c rest ih =>
      by_cases h : (c.defaultFocus && c.canFocus) = true
      · simp [focusScanDefault, List.find?, h]
      · simp only [Bool.not_eq_true] at h
        simp [focusScanDefault, List.find?, h, ih]

/-- The scan of `get_first_focusable_child` is `List.find?` with the
focusable predicate. -/
theorem focusScanFocusable_eq_find (l : List FTree) :
    focusScanFocusable l = l.find? (fun c => c.canFocus) := by
  induction l with
  | nil => rfl
  | cons c rest ih =>
      by_cases h : c.canFocus = true
      · simp [focusScanFocusable, List.find?, h]
      · simp only [Bool.not_eq_true] at h
        simp [focusScanFocusable, List.find?, h, ih]

/-- Claim C3: for every callback result routed through `callback_wrapper`,
`StopPropagation` is called exactly when the result equals the `VETO`
sentinel (and `Skip` is not called then, since `VETO` is truthy);
`Skip` is called exactly when the result is falsy; and for any other truthy
result neither propagation call is made. -/
theorem callback_wrapper_veto_skip (result : PyVal) :
    ((EventAction.stopPropagation ∈ callbackResultActions result) ↔ eqVeto result = true) ∧
    ((EventAction.skip ∈ callbackResultActions result) ↔ pyTruthy result = false) ∧
    (callbackResultActions result = [] ↔
      (pyTruthy result = true ∧ eqVeto result = false)) := by
  have hveto_truthy : eqVeto result = true → pyTruthy result = true := by
    cases result with
    | str s =>
        intro h
        simp only [eqVeto, beq_iff_eq] at h
        simp [pyTruthy, h]
    | none => intro h; simp [eqVeto] at h
    | bool b => intro h; simp [eqVeto] at h
    | int n => intro h; simp [eqVeto] at h
    | obj i => intro h; simp [eqVeto] at h
  by_cases hv : eqVeto result = true
  · have ht := hveto_truthy hv
    simp [callbackResultActions, hv, ht]
  · have hv' : eqVeto result = false := by
      cases h : eqVeto result
      · rfl
      · exact absurd h hv
    by_cases htr : pyTruthy result = true
    · simp [callbackResultActions, hv', htr]
    · have htr' : pyTruthy result = false := by
        cases h : pyTruthy result
        · rfl
        · exact absurd h htr
      simp [callbackResultActions, hv', htr']

/-- Claim C5: when a field's widget type is unset (`None`) at `render` time,
`render` raises a `RuntimeError` without attempting widget construction, so
no widget is created; one level down, `Widget.create_control` with no control
type likewise raises a `RuntimeError` and creates no control.  Independence
from `ctor` witnesses that the constructor is never invoked. -/
theorem render_missing_widget_type_raises (ctor ctor' : String → Except String Nat) :
    fieldRender Option.none ctor
        = Except.error (PyError.runtimeError "Must set a widget_type" Option.none) ∧
    (∀ w : Nat, fieldRender Option.none ctor ≠ Except.ok w) ∧
    fieldRender Option.none ctor = fieldRender Option.none ctor' ∧
    createControl Option.none ctor
        = Except.error (PyError.runtimeError "No control type provided" Option.none) ∧
    (∀ c : Nat, createControl Option.none ctor ≠ Except.ok c) := by
  refine ⟨rfl, ?_, rfl, rfl, ?_⟩
  · intro w h
    simp [fieldRender] at h
  · intro c h
    simp [createControl] at h

/-- Claim C6: when widget construction fails with any exception `e`, the
field's `render` re-raises a `RuntimeError` whose message names the widget
type and contains the original error text, with the original exception
attached as the cause (`raise ... from e`), and the field's widget attribute
is never set (no widget value is produced). -/
theorem render_wraps_widget_construction_failure (t e : String)
    (ctor : String → Except String Nat) (hfail : ctor t = Except.error e) :
    fieldRender (Option.some t) ctor
        = Except.error (PyError.runtimeError
            ("Unable to create widget with type " ++ t ++ ": " ++ e) (Option.some e)) ∧
    (∃ pre post : String,
        "Unable to create widget with type " ++ t ++ ": " ++ e = pre ++ t ++ post) ∧
    (∃ pre : String,
        "Unable to create widget with type " ++ t ++ ": " ++ e = pre ++ e) ∧
    (∀ w : Nat, fieldRender (Option.some t) ctor ≠ Except.ok w) := by
  refine ⟨?_, ?_, ?_, ?_⟩
  · simp [fieldRender, hfail]
  · exact ⟨"Unable to create widget with type ", ": " ++ e, by
      simp [String.append_assoc]⟩
  · exact ⟨"Unable to create widget with type " ++ t ++ ": ", by
      simp [String.append_assoc]⟩
  · intro w h
    simp [fieldRender, hfail] at h

/-- Witness for C6 at a concrete failing constructor. -/
theorem render_wraps_widget_construction_failure_witness :
    (fun _ : String => (Except.error "boom" : Except String Nat)) "TextWidget"
        = Except.error "boom" ∧
    fieldRender (Option.some "TextWidget")
        (fun _ => (Except.error "boom" : Except String Nat))
      = Except.error (PyError.runtimeError
          ("Unable to create widget with type " ++ "TextWidget" ++ ": " ++ "boom")
          (Option.some "boom")) :=
  ⟨rfl,
    (render_wraps_widget_construction_failure "TextWidget" "boom"
      (fun _ => Except.error "boom") rfl).1⟩

/-- Claim C7: `WXWidget.destroy` never propagates the dead-object
`RuntimeError`: for every widget state — including one whose control or
label control is already destroyed — it returns normally, leaving the
control destroyed and any existing label control destroyed; running it a
second time on the resulting state also returns normally with the same
state, so double-destroy is safe. -/
theorem widget_destroy_safe (s : WXWidgetState) :
    widgetDestroy s
        = Except.ok { labelControl := s.labelControl.map (fun _ => false),
                      controlAlive := false } ∧
    widgetDestroy { labelControl := s.labelControl.map (fun _ => false),
                    controlAlive := false }
        = Except.ok { labelControl := s.labelControl.map (fun _ => false),
                      controlAlive := false } := by
  obtain ⟨lc, ca⟩ := s
  cases lc with
  | none => cases ca <;> exact ⟨rfl, rfl⟩
  | some la => cases la <;> cases ca <;> exact ⟨rfl, rfl⟩

/-- Setting a fresh key on a dict appends the entry. -/
theorem dictSet_append_of_not_mem (d : List (String × PyValue)) (k : String) (v : PyValue)
    (h : (d.map Prod.fst).contains k = false) :
    dictSet d k v = d ++ [(k, v)] := by
  have h' : ¬((List.map Prod.fst d).contains k = true) := by
    rw [h]
    simp
  rw [dictSet, if_neg h']

/-- The `get_value` loop, run from an accumulator whose keys avoid the
children's (distinct) bound names, appends one entry per child in order. -/
theorem formGetValueLoop_append (cs : List VField) :
    ∀ res : List (String × PyValue),
      (cs.map VField.name).Nodup →
      (∀ c ∈ cs, (res.map Prod.fst).contains (VField.name c) = false) →
      formGetValueLoop res cs
        = res ++ cs.map (fun c => (VField.name c, fieldGetValue c)) := by
  induction cs with
  | nil => intro res _ _; simp [formGetValueLoop]
  | cons c rest ih =>
      intro res hnd hdisj
      have hc : (res.map Prod.fst).contains (VField.name c) = false :=
        hdisj c (List.mem_cons_self c rest)
      have hne : ∀ c' ∈ rest, VField.name c' ≠ VField.name c := by
        intro c' hc' heq
        have hmem : VField.name c ∈ rest.map VField.name := by
          rw [← heq]
          exact List.mem_map_of_mem VField.name hc'
        have : VField.name c ∉ rest.map VField.name := by
          have := hnd
          rw [List.map_cons, List.nodup_cons] at this
          exact this.1
        exact this hmem
      rw [formGetValueLoop, dictSet_append_of_not_mem _ _ _ hc]
      rw [ih (res ++ [(VField.name c, fieldGetValue c)]) (by
            have := hnd
            rw [List.map_cons, List.nodup_cons] at this
            exact this.2)
          (by
            intro c' hc'
            have h1 : VField.name c' ∉ res.map Prod.fst := by
              have := hdisj c' (List.mem_cons_of_mem c hc')
              simpa using this
            have h2 : VField.name c' ≠ VField.name c := hne c' hc'
            simp [h1, h2])]
      simp

/-- Claim C8: `BaseForm.get_value` returns a mapping with exactly one entry
per child field, keyed by the child's `bound_name`, whose value is the
child's own `get_value()`; entries appear in form iteration order, and a
child form contributes its own recursively aggregated mapping. -/
theorem form_get_value_entries (cs : List VField) (hnd : (cs.map VField.name).Nodup) :
    formGetValueLoop [] cs = cs.map (fun c => (VField.name c, fieldGetValue c)) ∧
    (formGetValueLoop [] cs).map Prod.fst = cs.map VField.name ∧
    (formGetValueLoop [] cs).length = cs.length ∧
    (∀ (n : String) (cs' : List VField),
        fieldGetValue (VField.form n cs') = PyValue.dict (formGetValueLoop [] cs')) := by
  have h := formGetValueLoop_append cs [] hnd (by intro c _; rfl)
  rw [List.nil_append] at h
  refine ⟨h, ?_, ?_, ?_⟩
  · rw [h, List.map_map]
    rfl
  · rw [h, List.length_map]
  · intro n cs'
    rw [fieldGetValue]

/-- Witness for C8: a form with a text field, a nested sub-form and a plain
field aggregates to the expected mapping. -/
theorem form_get_value_entries_witness :
    (([VField.leaf "a" (PyVal.int 1),
       VField.form "sub" [VField.leaf "b" (PyVal.str "x")],
       VField.leaf "c" PyVal.none].map VField.name).Nodup) ∧
    formGetValueLoop []
        [VField.leaf "a" (PyVal.int 1),
         VField.form "sub" [VField.leaf "b" (PyVal.str "x")],
         VField.leaf "c" PyVal.none]
      = [("a", PyValue.prim (PyVal.int 1)),
         ("sub", PyValue.dict [("b", PyValue.prim (PyVal.str "x"))]),
         ("c", PyValue.prim PyVal.none)] :=
  ⟨by simp [VField.name], by
    refine (form_get_value_entries
      [VField.leaf "a" (PyVal.int 1),
       VField.form "sub" [VField.leaf "b" (PyVal.str "x")],
       VField.leaf "c" PyVal.none] (by simp [VField.name])).1.trans ?_
    simp [VField.name, fieldGetValue, formGetValueLoop, dictSet]⟩

/-- The consumption loop of `BaseForm.__init__`, from any accumulator and
dict: the assignments collect the child-named keywords of the remaining
iteration in order, and the dict loses exactly the child-named keys seen by
the iteration. -/
theorem baseFormConsume_go (names : List String) (l : List (String × PyVal)) :
    ∀ (acc : List (String × PyVal)) (d : Kwargs),
      l.foldl (baseFormConsumeStep names) (acc, d)
        = (acc ++ l.filter (fun p => names.contains p.1),
           d.filter (fun p =>
             !(names.contains p.1 && (l.map Prod.fst).contains p.1))) := by
  induction l with
  | nil =>
      intro acc d
      simp
  | cons kv rest ih =>
      intro acc d
      rw [List.foldl_cons]
      by_cases hc : names.contains kv.1 = true
      · simp only [baseFormConsumeStep, hc, if_true]
        rw [ih (acc ++ [kv]) (dictPop d kv.1)]
        simp only [Prod.mk.injEq]
        constructor
        · rw [List.filter_cons_of_pos (by simpa using hc), List.append_assoc]
          rfl
        · rw [dictPop, List.filter_filter]
          apply List.filter_congr
          intro a _
          by_cases ha : (a.1 == kv.1) = true
          · have ha' : a.1 = kv.1 := by simpa using ha
            have hmem : kv.1 ∈ names := by simpa using hc
            simp [ha, ha', hmem]
          · have ha' : (a.1 == kv.1) = false := by
              cases h : (a.1 == kv.1)
              · rfl
              · exact absurd h ha
            have hane : ¬(a.1 = kv.1) := by simpa using ha'
            simp [ha', hane]
      · have hc' : names.contains kv.1 = false := by
          cases h : names.contains kv.1
          · rfl
          · exact absurd h hc
        simp only [baseFormConsumeStep, hc', if_false, Bool.false_eq_true]
        rw [ih acc d]
        simp only [Prod.mk.injEq]
        constructor
        · rw [List.filter_cons_of_neg (by simpa using hc')]
        · apply List.filter_congr
          intro a _
          by_cases ha : (a.1 == kv.1) = true
          · have ha' : a.1 = kv.1 := by simpa using ha
            have hnm : kv.1 ∉ names := by simpa using hc'
            simp [ha', hnm]
          · have ha' : (a.1 == kv.1) = false := by
              cases h : (a.1 == kv.1)
              · rfl
              · exact absurd h ha
            have hane : ¬(a.1 = kv.1) := by simpa using ha'
            simp [ha', hane]

/-- Claim C10: constructing a form consumes exactly the constructor keywords
naming one of its child fields — each such keyword sets that child's
`default_value` (in keyword order) and is removed before forwarding — while
all other keywords are forwarded unchanged, in order. -/
theorem base_form_init_consumes_child_kwargs (names : List String) (kwargs : Kwargs)
    (_hnd : (kwargs.map Prod.fst).Nodup) :
    baseFormConsume names kwargs
      = (kwargs.filter (fun p => names.contains p.1),
         kwargs.filter (fun p => !(names.contains p.1))) := by
  unfold baseFormConsume
  rw [baseFormConsume_go]
  simp only [List.nil_append, Prod.mk.injEq, eq_self_iff_true, true_and]
  apply List.filter_congr
  intro a ha
  have hm : (kwargs.map Prod.fst).contains a.1 = true := by
    have : a.1 ∈ kwargs.map Prod.fst := List.mem_map_of_mem Prod.fst ha
    simpa using this
  rw [hm, Bool.and_true]

/-- Witness for C10: a form with children `text` and `button`, constructed
with `text="hello", size=5`, consumes `text` as a default value and forwards
`size`. -/
theorem base_form_init_consumes_child_kwargs_witness :
    (([("text", PyVal.str "hello"), ("size", PyVal.int 5)].map
        (Prod.fst (α := String) (β := PyVal))).Nodup) ∧
    baseFormConsume ["text", "button"]
        [("text", PyVal.str "hello"), ("size", PyVal.int 5)]
      = ([("text", PyVal.str "hello")], [("size", PyVal.int 5)]) :=
  ⟨by decide, by
    refine (base_form_init_consumes_child_kwargs ["text", "button"]
      [("text", PyVal.str "hello"), ("size", PyVal.int 5)] (by decide)).trans ?_
    decide⟩

/-- Claim C4: calling a field class with no `parent` keyword (and no truthy
`top_level_window`) yields an `UnboundField` descriptor holding the
constructor kwargs; `bind(parent, name)` on that descriptor constructs the
live field, whose `parent` and `bound_name` are the given parent and name;
and calling a field class with a `parent` keyword yields a live field
directly. -/
theorem guifield_unbound_and_bind (kwargs : Kwargs)
    (hnp : kwargs.lookup "parent" = Option.none)
    (htl : pyTruthy (kwGet kwargs "top_level_window") = false)
    (p : PyVal) (hp : p ≠ PyVal.none) (name : Option String)
    (kwargs2 : Kwargs) (hp2 : hasKey kwargs2 "parent" = true) :
    guiFieldConstruct kwargs = NewResult.unbound { kwargs := kwargs } ∧
    unboundFieldBind { kwargs := kwargs } p name
        = NewResult.live { parent := p, bound_name := Option.some name } ∧
    (∃ f : LiveField, guiFieldConstruct kwargs2 = NewResult.live f) := by
  refine ⟨?_, ?_, ?_⟩
  · have hk : hasKey kwargs "parent" = false := by
      simp [hasKey, hnp]
    simp [guiFieldConstruct, hk, htl]
  · have hk : hasKey (("bound_name", optToPy name) :: ("parent", p) :: kwargs) "parent"
        = true := by
      simp [hasKey, List.lookup]
    have hg : kwGet (("bound_name", optToPy name) :: ("parent", p) :: kwargs) "parent"
        = p := by
      simp [kwGet, List.lookup]
    have hb : pyStrOpt (kwGet (("bound_name", optToPy name) :: ("parent", p) :: kwargs)
        "bound_name") = name := by
      cases name with
      | none => simp [kwGet, List.lookup, optToPy, pyStrOpt]
      | some s => simp [kwGet, List.lookup, optToPy, pyStrOpt]
    simp [unboundFieldBind, guiFieldConstruct, hk, hg, hb, guiFieldInit, guiFieldBind, hp]
  · refine ⟨guiFieldInit (kwGet kwargs2 "parent") (pyStrOpt (kwGet kwargs2 "bound_name")), ?_⟩
    simp [guiFieldConstruct, hp2]

/-- Witness for C4: a concrete field declaration `Text(label="Name")` is
unbound; binding it to a parent object with name `"text"` produces the bound
live field; `Text(parent=frame)` is live directly. -/
theorem guifield_unbound_and_bind_witness :
    guiFieldConstruct [("label", PyVal.str "Name")]
        = NewResult.unbound { kwargs := [("label", PyVal.str "Name")] } ∧
    unboundFieldBind { kwargs := [("label", PyVal.str "Name")] } (PyVal.obj 7)
        (Option.some "text")
        = NewResult.live { parent := PyVal.obj 7,
                           bound_name := Option.some (Option.some "text") } ∧
    (∃ f : LiveField,
        guiFieldConstruct [("parent", PyVal.obj 3)] = NewResult.live f) :=
  guifield_unbound_and_bind [("label", PyVal.str "Name")] rfl rfl
    (PyVal.obj 7) (by decide) (Option.some "text")
    [("parent", PyVal.obj 3)] rfl

/-- Claim C9 counterexample: the claim says the field's `parent` reference is
weak, but `GUIField.bind` stores it with a plain assignment
(`self.parent = parent`), a strong reference — so the claimed conjunction
fails on its first conjunct. -/
theorem field_parent_ref_strong_counterexample :
    guiRefModel.fieldToParent = RefKind.strong ∧
    ¬(guiRefModel.fieldToParent = RefKind.weak ∧
      guiRefModel.widgetToField = RefKind.weak) := by
  refine ⟨rfl, ?_⟩
  intro h
  exact absurd h.1 (by simp [guiRefModel])

/-- Claim C9 amended: the Widget→Field back-reference is weak
(`weakref.proxy`), so while a Field holds its Widget strongly, there is no
two-way strong Field↔Widget reference cycle; the Field's `parent` reference,
by contrast, is a plain strong attribute assignment. -/
theorem widget_field_ref_weak_no_cycle :
    guiRefModel.widgetToField = RefKind.weak ∧
    guiRefModel.fieldToParent = RefKind.strong ∧
    ¬(guiRefModel.fieldToWidget = RefKind.strong ∧
      guiRefModel.widgetToField = RefKind.strong) := by
  refine ⟨rfl, rfl, ?_⟩
  intro h
  exact absurd h.2 (by simp [guiRefModel])

/-- Scanning the attribute names themselves (with unique names) through the
collection step recovers exactly the declared fields, in attribute order. -/
theorem filterMap_collectStep_names (attrs : PyAttrs)
    (hnd : (attrs.map Prod.fst).Nodup) :
    (attrs.map Prod.fst).filterMap (collectStep attrs) = declFields attrs := by
  induction attrs with
  | nil => rfl
  | cons p rest ih =>
      obtain ⟨n, a⟩ := p
      rw [List.map_cons, List.nodup_cons] at hnd
      obtain ⟨hn, hrest⟩ := hnd
      have hlook : List.lookup n ((n, a) :: rest) = Option.some a := by
        simp [List.lookup]
      have htail : (rest.map Prod.fst).filterMap (collectStep ((n, a) :: rest))
          = (rest.map Prod.fst).filterMap (collectStep rest) := by
        apply List.filterMap_congr
        intro m hm
        have hmn : ¬(m = n) := fun he => hn (he ▸ hm)
        have hb : (m == n) = false := by simpa using hmn
        have hl : List.lookup m ((n, a) :: rest) = List.lookup m rest := by
          simp [List.lookup, hb]
        rw [collectStep, collectStep, hl]
      rw [List.map_cons, List.filterMap_cons]
      by_cases hs : startsUnderscore n = true
      · have hhead : collectStep ((n, a) :: rest) n = Option.none := by
          rw [collectStep, if_pos hs]
        rw [hhead, htail, ih hrest]
        simp only [declFields, hs, if_true]
      · have hs' : startsUnderscore n = false := by
          cases h : startsUnderscore n
          · rfl
          · exact absurd h hs
        cases a with
        | none =>
            have hhead : collectStep ((n, Option.none) :: rest) n = Option.none := by
              rw [collectStep, if_neg (by rw [hs']; simp), hlook]
            rw [hhead, htail, ih hrest]
            simp only [declFields, hs', Bool.false_eq_true, if_false]
        | some c =>
            have hhead : collectStep ((n, Option.some c) :: rest) n
                = Option.some (n, c) := by
              rw [collectStep, if_neg (by rw [hs']; simp), hlook]
            rw [hhead, htail, ih hrest]
            simp only [declFields, hs', Bool.false_eq_true, if_false]

/-- Counters allocated after `counter` are all strictly above it. -/
theorem allocCounters_snd_gt (counter : Nat) (names : List String) :
    ∀ p ∈ allocCounters counter names, counter < p.2 := by
  induction names generalizing counter with
  | nil => intro p hp; simp [allocCounters] at hp
  | cons n rest ih =>
      intro p hp
      rw [allocCounters] at hp
      rcases List.mem_cons.mp hp with h | h
      · rw [h]; simp
      · have := ih (counter + 1) p h
        omega

/-- The global creation counter yields strictly increasing counters in
declaration order. -/
theorem allocCounters_increasing (counter : Nat) (names : List String) :
    List.Pairwise (fun a b : String × Nat => a.2 < b.2) (allocCounters counter names) := by
  induction names generalizing counter with
  | nil => exact List.Pairwise.nil
  | cons n rest ih =>
      rw [allocCounters]
      refine List.Pairwise.cons ?_ (ih (counter + 1))
      intro b hb
      have := allocCounters_snd_gt (counter + 1) rest b hb
      simp only
      omega

/-- Counter allocation preserves the declared names in order. -/
theorem allocCounters_names (counter : Nat) (names : List String) :
    (allocCounters counter names).map Prod.fst = names := by
  induction names generalizing counter with
  | nil => rfl
  | cons n rest ih =>
      rw [allocCounters, List.map_cons, ih (counter + 1)]

/-- Claim C1: `FormMeta.__call__` collects exactly the non-underscore
unbound-field class attributes and sorts them with the key
`(creation_counter, name)`; when the counters are strictly increasing in
declaration order (as the global `UnboundField.creation_counter` guarantees
— last conjunct), the collected list equals the declared fields in
declaration order, for any order `dirNames` in which `dir(cls)` presents
the attribute names; consequently `Form.__iter__` yields the bound children
in declaration order, declared fields first, then runtime-added fields in
addition order, with the `_fields` mapping consulted only for membership. -/
theorem formmeta_iter_declaration_order
    (attrs : PyAttrs) (dirNames : List String)
    (hdir : dirNames.Perm (attrs.map Prod.fst))
    (hnd : (attrs.map Prod.fst).Nodup)
    (hinc : List.Pairwise (fun a b : String × Nat => a.2 < b.2) (declFields attrs))
    (extra : List (String × Nat)) (fieldKeys : List String)
    (hkeys : ∀ p ∈ declFields attrs ++ extra, fieldKeys.contains p.1 = true) :
    fmCollect dirNames attrs = declFields attrs ∧
    formIterNames (fmCollect dirNames attrs) extra fieldKeys
      = (declFields attrs).map Prod.fst ++ extra.map Prod.fst ∧
    (∀ (counter : Nat) (names : List String),
        List.Pairwise (fun a b : String × Nat => a.2 < b.2)
          (allocCounters counter names) ∧
        (allocCounters counter names).map Prod.fst = names) := by
  have hpermL : (dirNames.filterMap (collectStep attrs)).Perm (declFields attrs) := by
    have h1 : (dirNames.filterMap (collectStep attrs)).Perm
        ((attrs.map Prod.fst).filterMap (collectStep attrs)) :=
      hdir.filterMap (collectStep attrs)
    rw [filterMap_collectStep_names attrs hnd] at h1
    exact h1
  have hcol : fmCollect dirNames attrs = declFields attrs := by
    unfold fmCollect
    exact List.eq_of_perm_of_sorted
      ((List.perm_insertionSort fkeyLe _).trans hpermL)
      (List.sorted_insertionSort fkeyLe _)
      (List.Pairwise.imp (fun h => Or.inl h) hinc)
  refine ⟨hcol, ?_, ?_⟩
  · have hall : ∀ n ∈ (declFields attrs ++ extra).map Prod.fst,
        fieldKeys.contains n = true := by
      intro n hn
      rcases List.mem_map.mp hn with ⟨p, hp, rfl⟩
      exact hkeys p hp
    rw [formIterNames, hcol, List.filter_eq_self.mpr hall, List.map_append]
  · intro counter names
    exact ⟨allocCounters_increasing counter names, allocCounters_names counter names⟩

/-- Witness for C1: a class with fields `zebra` (counter 11) then `alpha`
(counter 12), an underscore-named field attribute and a non-field attribute;
`dir` presents the names alphabetically, yet collection returns declaration
order, and iteration appends the runtime-added `late` field. -/
theorem formmeta_iter_declaration_order_witness :
    (["_priv", "alpha", "helper", "zebra"].Perm
      ([("zebra", Option.some 11), ("alpha", Option.some 12),
        ("_priv", Option.some 13),
        ("helper", (Option.none : Option Nat))].map Prod.fst)) ∧
    fmCollect ["_priv", "alpha", "helper", "zebra"]
        [("zebra", Option.some 11), ("alpha", Option.some 12),
         ("_priv", Option.some 13), ("helper", Option.none)]
      = [("zebra", 11), ("alpha", 12)] ∧
    formIterNames
        (fmCollect ["_priv", "alpha", "helper", "zebra"]
          [("zebra", Option.some 11), ("alpha", Option.some 12),
           ("_priv", Option.some 13), ("helper", Option.none)])
        [("late", 20)] ["zebra", "alpha", "late"]
      = ["zebra", "alpha", "late"] := by
  have h := formmeta_iter_declaration_order
    [("zebra", Option.some 11), ("alpha", Option.some 12),
     ("_priv", Option.some 13), ("helper", Option.none)]
    ["_priv", "alpha", "helper", "zebra"]
    (by decide) (by decide) (by decide)
    [("late", 20)] ["zebra", "alpha", "late"] (by decide)
  exact ⟨by decide, h.1.trans (by decide), h.2.1.trans (by decide)⟩

/-- Claim C2: `set_default_focus` makes exactly one `set_focus` call, and its
target is the first descendant in the depth-first declaration-order
traversal of `get_all_children` that has the `default_focus` flag and can be
focused; failing that, the first focusable descendant; failing that, the
form itself. -/
theorem set_default_focus_target (f : FTree) :
    setDefaultFocusCalls f = [specDefaultFocusTarget f] ∧
    (setDefaultFocusCalls f).length = 1 := by
  have h : setDefaultFocusCalls f = [specDefaultFocusTarget f] := by
    unfold setDefaultFocusCalls specDefaultFocusTarget getFirstFocusableChild
    rw [focusScanDefault_eq_find, focusScanFocusable_eq_find]
    cases h1 : List.find? (fun c => c.defaultFocus && c.canFocus) (getAllChildren f) with
    | some c => rfl
    | none =>
        cases h2 : List.find? (fun c => c.canFocus) (getAllChildren f) with
        | some c => rfl
        | none => rfl
  exact ⟨h, by rw [h]; rfl⟩

end GuiBuilder
